import Mathlib

/-!
Verification of the permission-and-visibility resolution logic and the
authentication token lifecycle of the simple-notes server, shallowly
embedded from the Go sources (`server/auth`, `server/router/api/v1`,
`server/router/fileserver`, `store`).  Machine integers are modelled as
`Nat`/`Int`, Go strings as `String`, database rows and protobuf messages
as structures carrying the fields these claims depend on, and fallible
operations as `Option`/`Except`.
-/

namespace SimpleNotes

/-- User roles stored in the users table (`store/user.go`):
`RoleHost = "HOST"`, `RoleAdmin = "ADMIN"`, `RoleUser = "USER"`. -/
inductive Role
  | user
  | admin
  | host
deriving DecidableEq

/-- Note visibility, the generated protobuf enum `NoteVisibility`:
`unspecified` = NOTE_VISIBILITY_UNSPECIFIED, `pub` = NOTE_VISIBILITY_PUBLIC,
`priv` = NOTE_VISIBILITY_PRIVATE. -/
inductive NoteVisibility
  | unspecified
  | pub
  | priv
deriving DecidableEq

/-- The persisted user record (`store.User`), restricted to the fields the
claims under verification read or write; `ID` is a Go `uint`, modelled as
`Nat`. -/
structure User where
  ID : Nat
  Username : String
  Nickname : String
  Avatar : String
  Bio : String
  Role : Role
deriving DecidableEq

/-- The note message (`pbstore.Note`) as handled by the API layer,
restricted to the fields the claims under verification read or write.
`AuthorId` is a decimal string in the protobuf message, parsed back to a
number at each permission check, exactly as in the Go code. -/
structure Note where
  Id : Int
  AuthorId : String
  Visibility : NoteVisibility
  Published : Bool
  PublishedAt : Int
deriving DecidableEq

/-- The attachment message (`pbstore.Attachment`) as handled by the API
layer, restricted to the fields the permission checks read.  `NoteId` is
either the empty string (unlinked) or a resource name of the form
`notes/<id>`, as produced by `scanAttachment` in `store/attachment.go`. -/
structure Attachment where
  Id : Int
  AuthorId : String
  NoteId : String
deriving DecidableEq

/-- Decimal digit test used by the Go parsing functions modelled below
(`'0'` has code 48, `'9'` has code 57). -/
def isDigitChar (c : Char) : Bool := 48 ≤ c.toNat && c.toNat ≤ 57

/-- Value of a list of decimal digit characters, most significant first,
as accumulated by Go's integer parsers. -/
def digitsVal (cs : List Char) : Nat :=
  cs.foldl (fun a c => a * 10 + (c.toNat - 48)) 0

/-- Model of `strconv.ParseUint(s, 10, 32)` with the error ignored, as in
`authorID, _ := strconv.ParseUint(note.AuthorId, 10, 32)`: a syntax error
yields 0, a range overflow yields the clamped maximum `2^32 - 1` (Go
returns the max magnitude together with `ErrRange`, and the caller drops
the error). -/
def goParseUint32 (s : String) : Nat :=
  if !s.data.isEmpty && s.data.all isDigitChar then
    min (digitsVal s.data) (2 ^ 32 - 1)
  else 0

/-- Model of `fmt.Sscanf(s, "%d", &x)` with `x` an unsigned integer:
leading spaces are skipped, then a nonempty run of decimal digits is
required (a sign is rejected for an unsigned target); `none` models the
error return. -/
def goSscanfUint (s : String) : Option Nat :=
  let ds := (s.data.dropWhile (fun c => c = ' ')).takeWhile isDigitChar
  if ds.isEmpty then none else some (digitsVal ds)

/-- Scan of an optionally signed decimal integer prefix, as `fmt.Sscanf`
does for `%d` with a signed integer target; `none` models the scan error
when no digit is present. -/
def goScanInt (cs : List Char) : Option Int :=
  match cs with
  | '-' :: rest =>
    let ds := rest.takeWhile isDigitChar
    if ds.isEmpty then none else some (-(digitsVal ds : Int))
  | '+' :: rest =>
    let ds := rest.takeWhile isDigitChar
    if ds.isEmpty then none else some ((digitsVal ds : Int))
  | _ =>
    let ds := cs.takeWhile isDigitChar
    if ds.isEmpty then none else some ((digitsVal ds : Int))

/-- Model of `fmt.Sscanf(s, "notes/%d", &id)` with `id` an `int64`: the
literal prefix `notes/` must match, then a signed integer is scanned. -/
def goScanNotesId (s : String) : Option Int :=
  match s.data with
  | 'n' :: 'o' :: 't' :: 'e' :: 's' :: '/' :: rest => goScanInt rest
  | _ => none

/-- Embedding of `isNoteVisibleToUser` (note service, `part_004` lines
87-106): a PUBLIC note is visible to everyone; otherwise a user must be
present and be the author (comparing `user.ID` against the parsed
`note.AuthorId`) or have the ADMIN or HOST role. -/
def isNoteVisibleToUser (note : Note) (user : Option User) : Bool :=
  if note.Visibility = NoteVisibility.pub then true
  else
    match user with
    | none => false
    | some u =>
      if u.ID = goParseUint32 note.AuthorId then true
      else decide (u.Role = Role.admin) || decide (u.Role = Role.host)

/-- JWT issuer claim constant (`server/auth/token.go`). -/
def Issuer : String := "simple-notes"

/-- Key identifier placed in the JWT header (`server/auth/token.go`). -/
def KeyID : String := "v1"

/-- JWT audience claim constant for access tokens (`server/auth/token.go`). -/
def AccessTokenAudienceName : String := "user.access-token"

/-- Lifetime of an access token (`24 * time.Hour` in `server/auth/token.go`),
in seconds, the granularity at which JWT numeric dates are compared. -/
def AccessTokenDuration : Int := 24 * 60 * 60

/-- Decimal digit characters of a natural number, most significant first,
computed with explicit fuel so that the definition is structural and
kernel-reducible; `fuel ≥ n` always suffices. -/
def toDigitsAux : Nat → Nat → List Char
  | 0, _ => []
  | fuel + 1, n =>
    if n < 10 then [Char.ofNat (48 + n)]
    else toDigitsAux fuel (n / 10) ++ [Char.ofNat (48 + n % 10)]

/-- Decimal representation of a natural number as a character list. -/
def natToDigits (n : Nat) : List Char := toDigitsAux (n + 1) n

/-- Model of `fmt.Sprint(userID)` for a signed integer: decimal digits,
preceded by a minus sign when negative. -/
def intToDecimalString (i : Int) : String :=
  if i < 0 then String.mk ('-' :: natToDigits i.natAbs)
  else String.mk (natToDigits i.natAbs)

/-- Shared helper of `goParseInt32`: parses the digit part after the sign
has been consumed, and enforces the 32-bit signed range exactly as
`strconv.ParseInt(s, 10, 32)` does (out-of-range input is an error). -/
def goParseInt32Digits (neg : Bool) (ds : List Char) : Option Int :=
  if ds.isEmpty || !ds.all isDigitChar then none
  else if neg then
    if -(2 ^ 31) ≤ -(digitsVal ds : Int) ∧ -(digitsVal ds : Int) ≤ 2 ^ 31 - 1 then
      some (-(digitsVal ds : Int))
    else none
  else
    if -(2 ^ 31) ≤ (digitsVal ds : Int) ∧ (digitsVal ds : Int) ≤ 2 ^ 31 - 1 then
      some ((digitsVal ds : Int))
    else none

/-- Model of `strconv.ParseInt(s, 10, 32)` as used by
`util.ConvertStringToInt32`: an optional sign followed by a nonempty run
of decimal digits, with the 32-bit range enforced; `none` models the error
return. -/
def goParseInt32 (s : String) : Option Int :=
  match s.data with
  | [] => none
  | c :: cs =>
    if c = '-' then goParseInt32Digits true cs
    else if c = '+' then goParseInt32Digits false cs
    else goParseInt32Digits false (c :: cs)

/-- Embedding of `util.ConvertStringToInt32` (`internal/util/util.go`). -/
def ConvertStringToInt32 (s : String) : Option Int := goParseInt32 s

/-- Claims carried by an access token (`AccessTokenClaims` in
`server/auth/token.go` plus the registered JWT claims).  The Go field
`Type` is rendered `typ` because `Type` is reserved in Lean. -/
structure AccessTokenClaims where
  typ : String
  role : String
  username : String
  issuer : String
  audience : List String
  subject : String
  issuedAt : Int
  expiresAt : Int
deriving DecidableEq

/-- Structural form of a well-formed JWT wire token: its header fields
(signing algorithm and key id), its claims, and its signature tag. -/
structure JWToken where
  alg : String
  kid : Option String
  claims : AccessTokenClaims
  sig : Nat
deriving DecidableEq

/-- Wire form of a token string: either it fails JWT parsing altogether
(`malformed`) or it carries a structured token. -/
inductive WireToken
  | malformed
  | tok (t : JWToken)
deriving DecidableEq

/-- Failure cases of token decoding, mirroring the checks performed by
`verifyJWTKeyFunc`, `jwt.ParseWithClaims` and `ParseAccessTokenV2`. -/
inductive TokenError
  | malformed
  | badAlg
  | badKid
  | badSignature
  | expired
  | badAudience
  | badIssuer
  | wrongType
deriving DecidableEq

/-- Authenticated user information extracted from an access token
(`UserClaims` in `server/auth/token.go`).  `UserID` is an `int32`. -/
structure UserClaims where
  UserID : Int
  Username : String
  Role : String
deriving DecidableEq

/-- Result of an authentication attempt (`AuthResult` in
`server/auth/authenticator.go`), produced only on success. -/
structure AuthResult where
  claims : UserClaims
  accessToken : String
deriving DecidableEq

/-- Length-prefixed byte rendering of a string, used by the stand-in MAC. -/
def serializeString (s : String) : List Nat :=
  s.length :: s.data.map Char.toNat

/-- Injection of a signed integer into `Nat` for serialization. -/
def serializeInt (i : Int) : Nat :=
  if 0 ≤ i then 2 * i.toNat else 2 * (-i).toNat + 1

/-- Serialization of the claims set, the signed payload of a token. -/
def serializeClaims (c : AccessTokenClaims) : List Nat :=
  serializeString c.typ ++ serializeString c.role ++ serializeString c.username ++
    serializeString c.issuer ++
    (c.audience.length :: c.audience.foldr (fun s acc => serializeString s ++ acc) []) ++
    serializeString c.subject ++ [serializeInt c.issuedAt, serializeInt c.expiresAt]

/-- Serialization of the token header (algorithm and key id). -/
def serializeHeader (alg : String) (kid : Option String) : List Nat :=
  serializeString alg ++ (match kid with | none => [0] | some k => 1 :: serializeString k)

/-- Signing input of a token: header followed by claims, as in the JWT
compact serialization that HMAC-SHA256 is computed over. -/
def signingInput (alg : String) (kid : Option String) (c : AccessTokenClaims) : List Nat :=
  serializeHeader alg kid ++ serializeClaims c

/-- Computable stand-in for the HMAC-SHA256 tag over the signing input:
the cryptographic hash itself is outside the scope of this embedding, so
the MAC is modelled as a concrete keyed fold which the decoder verifies by
recomputation, exactly as signature verification recomputes the tag. -/
def hmacSHA256StandIn (secret : String) (msg : List Nat) : Nat :=
  (serializeString secret ++ 997 :: msg).foldl (fun a b => a * 65599 + b + 1) 7

/-- Embedding of `GenerateAccessTokenV2` (`server/auth/token.go` lines
59-84): builds the claims with fixed issuer, audience, type `"access"`,
subject `fmt.Sprint(userID)`, `issued_at = now` and
`expires_at = now + AccessTokenDuration`, signs with HS256 under `secret`
and key id `KeyID`, and returns the token with its expiry.  The Go
function reads the clock itself; the embedding takes `now` explicitly. -/
def GenerateAccessTokenV2 (userID : Int) (username role secret : String)
    (now : Int) : WireToken × Int :=
  let expiresAt := now + AccessTokenDuration
  let claims : AccessTokenClaims :=
    { typ := "access", role := role, username := username,
      issuer := Issuer, audience := [AccessTokenAudienceName],
      subject := intToDecimalString userID, issuedAt := now, expiresAt := expiresAt }
  (WireToken.tok
    { alg := "HS256", kid := some KeyID, claims := claims,
      sig := hmacSHA256StandIn secret (signingInput "HS256" (some KeyID) claims) },
   expiresAt)

/-- Embedding of `ParseAccessTokenV2` (`server/auth/token.go` lines
111-124) together with the checks done inside `jwt.ParseWithClaims` and
`verifyJWTKeyFunc`: reject a malformed wire token, a non-HS256 algorithm,
a wrong key id, a bad signature, an expired token (valid only while
`now < expires_at`), a missing audience, a wrong issuer, and a claims type
other than `"access"`. -/
def ParseAccessTokenV2 (w : WireToken) (secret : String) (now : Int) :
    Except TokenError AccessTokenClaims :=
  match w with
  | WireToken.malformed => Except.error TokenError.malformed
  | WireToken.tok t =>
    if t.alg ≠ "HS256" then Except.error TokenError.badAlg
    else if t.kid ≠ some KeyID then Except.error TokenError.badKid
    else if t.sig ≠ hmacSHA256StandIn secret (signingInput t.alg t.kid t.claims) then
      Except.error TokenError.badSignature
    else if t.claims.expiresAt ≤ now then Except.error TokenError.expired
    else if AccessTokenAudienceName ∉ t.claims.audience then
      Except.error TokenError.badAudience
    else if t.claims.issuer ≠ Issuer then Except.error TokenError.badIssuer
    else if t.claims.typ ≠ "access" then Except.error TokenError.wrongType
    else Except.ok t.claims

/-- Embedding of `Authenticator.AuthenticateByAccessTokenV2`
(`server/auth/authenticator.go` lines 45-61): parse and validate the
token, then convert the subject string to a user id; any failure is an
error, modelled as `none`. -/
def AuthenticateByAccessTokenV2 (w : WireToken) (secret : String) (now : Int) :
    Option UserClaims :=
  match ParseAccessTokenV2 w secret now with
  | Except.error _ => none
  | Except.ok claims =>
    match ConvertStringToInt32 claims.subject with
    | none => none
    | some uid => some { UserID := uid, Username := claims.username, Role := claims.role }

/-- White-space test of `unicode.IsSpace` restricted to the Latin-1 range
Go checks directly: space, tab, newline, vertical tab, form feed, carriage
return, NEL (0x85) and NBSP (0xA0). -/
def isGoSpace (c : Char) : Bool :=
  c = ' ' || c = '\t' || c = '\n' || c.toNat = 11 || c.toNat = 12 ||
    c = '\r' || c.toNat = 133 || c.toNat = 160

/-- Accumulator loop of `strings.Fields`: splits a character list around
runs of white space. -/
def goFieldsAux : List Char → List Char → List (List Char)
  | [], acc => if acc.isEmpty then [] else [acc.reverse]
  | c :: rest, acc =>
    if isGoSpace c then
      if acc.isEmpty then goFieldsAux rest []
      else acc.reverse :: goFieldsAux rest []
    else goFieldsAux rest (c :: acc)

/-- Model of `strings.Fields`. -/
def goFields (cs : List Char) : List (List Char) := goFieldsAux cs []

/-- ASCII lower-casing of a character, the folding relevant for comparing
a header scheme against the ASCII word `"bearer"`. -/
def toLowerAscii (c : Char) : Char :=
  if 65 ≤ c.toNat ∧ c.toNat ≤ 90 then Char.ofNat (c.toNat + 32) else c

/-- Model of `strings.EqualFold` on the inputs that matter here: for the
pattern `"bearer"`, whose letters have no case partners outside ASCII,
Unicode simple folding coincides with ASCII folding. -/
def eqFoldAscii (a b : List Char) : Bool :=
  decide (a.map toLowerAscii = b.map toLowerAscii)

/-- Embedding of `ExtractBearerToken` (`server/auth/extract.go` lines
14-23): an empty header, a header that does not split into exactly two
fields, or a scheme that is not a case-insensitive `bearer` all yield the
empty token; otherwise the second field is the token. -/
def ExtractBearerToken (authHeader : String) : String :=
  if authHeader = "" then ""
  else
    match goFields authHeader.data with
    | [p0, p1] => if eqFoldAscii p0 "bearer".data then String.mk p1 else ""
    | _ => ""

/-- Embedding of `Authenticator.Authenticate`
(`server/auth/authenticator.go` lines 80-95): extract the bearer token; if
one is present and it validates, return the claims with the token, else
return no identity.  `parseWire` stands for the byte-level JWT parsing of
the token string, which this embedding does not model bit for bit. -/
def Authenticate (parseWire : String → WireToken) (authHeader secret : String)
    (now : Int) : Option AuthResult :=
  let token := ExtractBearerToken authHeader
  if token = "" then none
  else
    match AuthenticateByAccessTokenV2 (parseWire token) secret now with
    | some claims => some { claims := claims, accessToken := token }
    | none => none

/-- Outcome of the authentication-plus-permission prologue shared by the
mutation handlers: the gRPC status the handler would return, or `allow`
when control reaches the actual mutation. -/
inductive MutationDecision
  | allow
  | unauthenticated
  | permissionDenied
  | internalErr
deriving DecidableEq

/-- Embedding of the authentication and permission prologue of
`UpdateNote` (note service, `part_004` lines 184-220): no identity is
`codes.Unauthenticated`; a present identity that is neither the note's
author (comparing against the parsed `AuthorId`) nor ADMIN nor HOST is
`codes.PermissionDenied`. -/
def updateNotePermission (ident : Option User) (existing : Note) : MutationDecision :=
  match ident with
  | none => MutationDecision.unauthenticated
  | some u =>
    if u.ID ≠ goParseUint32 existing.AuthorId ∧ u.Role ≠ Role.admin ∧ u.Role ≠ Role.host
    then MutationDecision.permissionDenied
    else MutationDecision.allow

/-- Embedding of the authentication and permission prologue of
`DeleteNote` (note service, `part_004` lines 251-274), identical in
structure to the `UpdateNote` prologue. -/
def deleteNotePermission (ident : Option User) (existing : Note) : MutationDecision :=
  match ident with
  | none => MutationDecision.unauthenticated
  | some u =>
    if u.ID ≠ goParseUint32 existing.AuthorId ∧ u.Role ≠ Role.admin ∧ u.Role ≠ Role.host
    then MutationDecision.permissionDenied
    else MutationDecision.allow

/-- Embedding of the authentication and permission prologue of
`UpdateAttachment` (`attachment_service.go` lines 273-307): no identity is
`codes.Unauthenticated`; an unparsable `AuthorId` is `codes.Internal`; a
present identity whose id differs from the author id is
`codes.PermissionDenied` — only the author passes, with no role check. -/
def updateAttachmentPermission (ident : Option User) (att : Attachment) : MutationDecision :=
  match ident with
  | none => MutationDecision.unauthenticated
  | some u =>
    match goSscanfUint att.AuthorId with
    | none => MutationDecision.internalErr
    | some authorID =>
      if u.ID ≠ authorID then MutationDecision.permissionDenied
      else MutationDecision.allow

/-- Embedding of the authentication and permission prologue of
`DeleteAttachment` (`attachment_service.go` lines 331-357), identical in
structure to the `UpdateAttachment` prologue. -/
def deleteAttachmentPermission (ident : Option User) (att : Attachment) : MutationDecision :=
  match ident with
  | none => MutationDecision.unauthenticated
  | some u =>
    match goSscanfUint att.AuthorId with
    | none => MutationDecision.internalErr
    | some authorID =>
      if u.ID ≠ authorID then MutationDecision.permissionDenied
      else MutationDecision.allow

/-- Specification-side mutation predicate, modelled from the spec:
CanMutate requires identity present AND (user id equals the resource
author id OR role is ADMIN or HOST). -/
def CanMutate (author : Nat) (ident : Option User) : Bool :=
  match ident with
  | none => false
  | some u =>
    decide (u.ID = author) || decide (u.Role = Role.admin) || decide (u.Role = Role.host)

/-- Permission core of the RPC `GetAttachment` (`attachment_service.go`
lines 217-261): first, a linked attachment whose note id parses, whose
note exists, and whose note is visible to the caller is allowed; second,
if not yet allowed and an identity is present whose `AuthorId` parses, the
author or an ADMIN or HOST is allowed.  `lookupNote` stands for
`Store.GetNote`, with `none` for the error case. -/
def getAttachmentAllowed (ident : Option User) (att : Attachment)
    (lookupNote : Int → Option Note) : Bool :=
  let allowed :=
    if att.NoteId ≠ "" then
      match goScanNotesId att.NoteId with
      | some nid =>
        match lookupNote nid with
        | some note => isNoteVisibleToUser note ident
        | none => false
      | none => false
    else false
  if !allowed then
    match ident with
    | none => false
    | some u =>
      match goSscanfUint att.AuthorId with
      | some a => decide (u.ID = a) || decide (u.Role = Role.admin) || decide (u.Role = Role.host)
      | none => false
  else true

/-- Denial mapping at the end of `GetAttachment`: a caller that is not
allowed receives `codes.Unauthenticated` when no identity is present and
`codes.PermissionDenied` otherwise. -/
def getAttachmentDecision (ident : Option User) (att : Attachment)
    (lookupNote : Int → Option Note) : MutationDecision :=
  if getAttachmentAllowed ident att lookupNote then MutationDecision.allow
  else
    match ident with
    | none => MutationDecision.unauthenticated
    | some _ => MutationDecision.permissionDenied

/-- HTTP outcome of the file-serving permission check. -/
inductive FsOutcome
  | ok
  | unauthorized
  | forbidden
  | notFound
  | internalErr
deriving DecidableEq

/-- Embedding of `checkAttachmentPermission`
(`server/router/fileserver/fileserver.go` lines 154-214): an unlinked
attachment requires an identity (else 401) and exactly the author (else
403), with no role override; a linked attachment requires the note to
exist (else 404); a PUBLIC note is served to everyone; otherwise an
identity is required (else 401), and a PRIVATE note is served only to the
note's author (else 403), again with no role override. -/
def checkAttachmentPermission (ident : Option User) (att : Attachment)
    (lookupNote : Int → Option Note) : FsOutcome :=
  if att.NoteId = "" then
    match ident with
    | none => FsOutcome.unauthorized
    | some u =>
      match goSscanfUint att.AuthorId with
      | none => FsOutcome.internalErr
      | some a => if u.ID ≠ a then FsOutcome.forbidden else FsOutcome.ok
  else
    match goScanNotesId att.NoteId with
    | none => FsOutcome.internalErr
    | some nid =>
      match lookupNote nid with
      | none => FsOutcome.notFound
      | some note =>
        if note.Visibility = NoteVisibility.pub then FsOutcome.ok
        else
          match ident with
          | none => FsOutcome.unauthorized
          | some u =>
            if note.Visibility = NoteVisibility.priv then
              match goSscanfUint note.AuthorId with
              | none => FsOutcome.internalErr
              | some a => if u.ID ≠ a then FsOutcome.forbidden else FsOutcome.ok
            else FsOutcome.ok

/-- Fixed allowlist of endpoint names exempt from authentication
(`PublicMethods` in `category_service.go`). -/
def PublicMethods : List String :=
  ["/api.v1.UserService/RegisterUser",
   "/api.v1.UserService/LoginUser",
   "/api.v1.NoteService/ListNotes",
   "/api.v1.NoteService/GetNote",
   "/api.v1.CategoryService/ListCategories",
   "/api.v1.CategoryService/GetCategory",
   "/api.v1.CategoryService/GetCategoryBySlug",
   "/api.v1.TagService/ListTags",
   "/api.v1.TagService/GetTag",
   "/api.v1.TagService/GetTagBySlug",
   "/api.v1.AttachmentService/ListAttachments"]

/-- Embedding of `IsPublicMethod` (`category_service.go`). -/
def IsPublicMethod (procedure : String) : Bool :=
  PublicMethods.contains procedure

/-- Outcome of the authentication interceptor around a unary handler:
either the request is rejected before the handler runs, or the handler is
invoked with the resolved optional claims in its context. -/
inductive InterceptOutcome (α : Type)
  | unauthenticated
  | handled (a : α)
deriving DecidableEq

/-- Embedding of `AuthInterceptor.WrapUnary` (`part_001` lines 99-121):
given the resolver's result for the request's Authorization header and the
procedure name, reject with `connect.CodeUnauthenticated` when no identity
resolved and the method is not public; otherwise run the handler with the
claims (if any) attached to the context. -/
def WrapUnary {α : Type} (result : Option AuthResult) (procedure : String)
    (next : Option UserClaims → α) : InterceptOutcome α :=
  if result.isNone && !IsPublicMethod procedure then InterceptOutcome.unauthenticated
  else InterceptOutcome.handled (next (result.map AuthResult.claims))

/-- Outcome of the RPC `GetNote` permission step (`part_004` lines
123-127): an invisible note yields a plain `fmt.Errorf` error with no
gRPC status code, the same value whether the caller is anonymous or an
authenticated stranger. -/
inductive GetNoteOutcome
  | ok
  | genericErr
deriving DecidableEq

/-- Embedding of the visibility step of `GetNote`. -/
def getNoteDecision (ident : Option User) (note : Note) : GetNoteOutcome :=
  if isNoteVisibleToUser note ident then GetNoteOutcome.ok else GetNoteOutcome.genericErr

/-- Protobuf user role enum (`storepb.UserRole`). -/
inductive ProtoUserRole
  | unspecified
  | user
  | admin
  | host
deriving DecidableEq

/-- Embedding of `convertUserRoleFromProto` (`part_002`): HOST, ADMIN and
USER map to the store roles, anything else defaults to USER. -/
def convertUserRoleFromProto : ProtoUserRole → Role
  | ProtoUserRole.host => Role.host
  | ProtoUserRole.admin => Role.admin
  | ProtoUserRole.user => Role.user
  | ProtoUserRole.unspecified => Role.user

/-- Update payload of `UpdateUser` (`apiv1.UpdateUserRequest`), restricted
to the fields the handler copies. -/
structure UserPatch where
  Username : String
  Nickname : String
  Avatar : String
  Bio : String
  Role : ProtoUserRole
deriving DecidableEq

/-- Embedding of the field-update block of `UpdateUser` (`part_002` lines
663-711): every nonempty string field overwrites the stored one, and a
non-UNSPECIFIED role overwrites the stored role.  The handler performs no
check on the caller's identity — the permission check is commented out in
the source — so the function has no caller parameter at all. -/
def applyUserUpdate (current : User) (patch : UserPatch) : User :=
  let u1 := if patch.Username ≠ "" then { current with Username := patch.Username } else current
  let u2 := if patch.Nickname ≠ "" then { u1 with Nickname := patch.Nickname } else u1
  let u3 := if patch.Avatar ≠ "" then { u2 with Avatar := patch.Avatar } else u2
  let u4 := if patch.Bio ≠ "" then { u3 with Bio := patch.Bio } else u3
  if patch.Role ≠ ProtoUserRole.unspecified then
    { u4 with Role := convertUserRoleFromProto patch.Role }
  else u4

/-- Embedding of the `published_at` step of the service-level `UpdateNote`
(`part_004` lines 233-236): when the stored note is unpublished and the
payload publishes it, the payload's `PublishedAt` is set to the current
time; otherwise the payload is passed through unchanged. -/
def serviceUpdateNote (existing payload : Note) (nowSvc : Int) : Note :=
  if !existing.Published && payload.Published then { payload with PublishedAt := nowSvc }
  else payload

/-- Embedding of the `published_at` computation of `Store.UpdateNote`
(`store/tag.go` lines 776-797): the stored value is the payload's
`PublishedAt` when positive, and the store's current time otherwise. -/
def storeUpdateNotePublishedAt (payload : Note) (nowStore : Int) : Int :=
  if 0 < payload.PublishedAt then payload.PublishedAt else nowStore

/-- Stored `published_at` after an `UpdateNote` request travels through
the service layer and then the store layer. -/
def updateNoteStoredPublishedAt (existing payload : Note) (nowSvc nowStore : Int) : Int :=
  storeUpdateNotePublishedAt (serviceUpdateNote existing payload nowSvc) nowStore

/-- Database row of the attachments table as filtered by
`Store.ListAttachments` (`store/attachment.go` lines 73-106): `noteId` is
the nullable `note_id` column, `deleted` says whether `deleted_at` is set.
Rows are kept in `created_at` ascending order, the order the query
returns. -/
structure AttachmentRow where
  id : Nat
  noteId : Option Int
  authorId : Nat
  deleted : Bool
deriving DecidableEq

/-- Embedding of `Store.ListAttachments`: keeps non-deleted rows, and
filters by `note_id` and by `author_id` when those arguments are set. -/
def storeListAttachments (db : List AttachmentRow) (noteID : Option Int)
    (authorID : Option Nat) : List AttachmentRow :=
  db.filter fun a =>
    !a.deleted &&
      (match noteID with | none => true | some nid => decide (a.noteId = some nid)) &&
      (match authorID with | none => true | some aid => decide (a.authorId = aid))

/-- Result of the RPC `ListAttachments`. -/
inductive ListAttachmentsResult
  | unauthenticated
  | notFound
  | permissionDenied
  | ok (rows : List AttachmentRow)
deriving DecidableEq

/-- Effective page size of `ListAttachments`: defaulted to 50 when not
positive and capped at 1000. -/
def effPageSize (reqPageSize : Int) : Nat :=
  if reqPageSize ≤ 0 then 50
  else if 1000 < reqPageSize then 1000
  else reqPageSize.toNat

/-- Embedding of the RPC `ListAttachments` (`attachment_service.go` lines
141-208): a note filter that parses routes through note lookup (404 when
missing) and note visibility (403 when invisible, with no identity
distinction), listing the note's attachments without an author filter;
without a usable note filter, an identity is required (401) and the
listing is filtered to the caller's own attachments.  The store result is
truncated to the effective page size. -/
def ListAttachments (ident : Option User) (reqPageSize : Int) (reqNoteId : String)
    (lookupNote : Int → Option Note) (db : List AttachmentRow) : ListAttachmentsResult :=
  let pageSize := effPageSize reqPageSize
  let noteID : Option Int := if reqNoteId ≠ "" then goScanNotesId reqNoteId else none
  match noteID with
  | some nid =>
    match lookupNote nid with
    | none => ListAttachmentsResult.notFound
    | some note =>
      if !isNoteVisibleToUser note ident then ListAttachmentsResult.permissionDenied
      else ListAttachmentsResult.ok ((storeListAttachments db (some nid) none).take pageSize)
  | none =>
    match ident with
    | none => ListAttachmentsResult.unauthenticated
    | some u =>
      ListAttachmentsResult.ok ((storeListAttachments db none (some u.ID)).take pageSize)

end SimpleNotes

namespace SimpleNotes

/-- C1: read-visibility of a note.  A PUBLIC note is readable regardless of
identity, and a non-public note is readable if and only if an identity is
present and either its user id equals the note's (parsed) author id or its
role is ADMIN or HOST. -/
theorem claim1_note_read_visibility (note : Note) (ident : Option User) :
    isNoteVisibleToUser note ident = true ↔
      (note.Visibility = NoteVisibility.pub ∨
        ∃ u, ident = some u ∧
          (u.ID = goParseUint32 note.AuthorId ∨ u.Role = Role.admin ∨ u.Role = Role.host)) := by
  rcases note with ⟨nid, author, vis, pub, pubAt⟩
  rcases ident with _ | u
  · cases vis <;> simp [isNoteVisibleToUser]
  · cases vis <;>
      simp only [isNoteVisibleToUser] <;>
      by_cases h : u.ID = goParseUint32 author <;>
      simp [h]

/-- Helper: value of a digit list with one digit appended. -/
theorem digitsVal_append_singleton (xs : List Char) (c : Char) :
    digitsVal (xs ++ [c]) = digitsVal xs * 10 + (c.toNat - 48) := by
  simp [digitsVal, List.foldl_append]

/-- Helper: code point of a digit character built from a value below 10. -/
theorem charOfNat_digit_toNat (m : Nat) (h : m < 10) :
    (Char.ofNat (48 + m)).toNat = 48 + m := by
  interval_cases m <;> decide

/-- Helper: a character built from a value below 10 is a digit. -/
theorem isDigitChar_ofNat (m : Nat) (h : m < 10) :
    isDigitChar (Char.ofNat (48 + m)) = true := by
  interval_cases m <;> decide

/-- Helper: with sufficient fuel, `toDigitsAux` produces a nonempty digit
string whose value is the input. -/
theorem toDigitsAux_spec (fuel : Nat) : ∀ n, n ≤ fuel →
    digitsVal (toDigitsAux (fuel + 1) n) = n ∧
      toDigitsAux (fuel + 1) n ≠ [] ∧
      (toDigitsAux (fuel + 1) n).all isDigitChar = true := by
  induction fuel with
  | zero =>
    intro n hn
    interval_cases n
    refine ⟨by decide, by decide, by decide⟩
  | succ f ih =>
    intro n hn
    by_cases h10 : n < 10
    · have hstep : toDigitsAux (f + 1 + 1) n = [Char.ofNat (48 + n)] := by
        simp [toDigitsAux, h10]
      rw [hstep]
      refine ⟨?_, by simp, ?_⟩
      · simp [digitsVal, charOfNat_digit_toNat n h10]
      · simp [isDigitChar_ofNat n h10]
    · have hstep : toDigitsAux (f + 1 + 1) n =
          toDigitsAux (f + 1) (n / 10) ++ [Char.ofNat (48 + n % 10)] := by
        simp [toDigitsAux, h10]
      have hdiv : n / 10 ≤ f := by
        have h1 : n / 10 < n := Nat.div_lt_self (by omega) (by omega)
        omega
      obtain ⟨hv, hne, hall⟩ := ih (n / 10) hdiv
      rw [hstep]
      have hm : n % 10 < 10 := Nat.mod_lt _ (by omega)
      refine ⟨?_, by simp, ?_⟩
      · rw [digitsVal_append_singleton, hv, charOfNat_digit_toNat (n % 10) hm]
        omega
      · simp [List.all_append, hall, isDigitChar_ofNat (n % 10) hm]

/-- Helper: the decimal rendering of a natural number is a nonempty digit
string whose value is that number. -/
theorem natToDigits_spec (n : Nat) :
    digitsVal (natToDigits n) = n ∧ natToDigits n ≠ [] ∧
      (natToDigits n).all isDigitChar = true :=
  toDigitsAux_spec n n le_rfl

/-- Helper: a digit character is neither a minus nor a plus sign. -/
theorem isDigitChar_ne_sign (c : Char) (h : isDigitChar c = true) :
    c ≠ '-' ∧ c ≠ '+' := by
  constructor <;> intro heq <;> subst heq <;> simp [isDigitChar] at h

/-- Helper: parsing inverts printing for every 32-bit signed integer,
modelling that `strconv.ParseInt` recovers what `fmt.Sprint` produced. -/
theorem goParseInt32_roundtrip (i : Int) (hlo : -(2 ^ 31) ≤ i) (hhi : i ≤ 2 ^ 31 - 1) :
    goParseInt32 (intToDecimalString i) = some i := by
  obtain ⟨hv, hne, hall⟩ := natToDigits_spec i.natAbs
  have hvabs : ((digitsVal (natToDigits i.natAbs) : Nat) : Int) = (i.natAbs : Int) := by
    rw [hv]
  by_cases hneg : i < 0
  · have hdata : (intToDecimalString i).data = '-' :: natToDigits i.natAbs := by
      simp [intToDecimalString, hneg]
    have h1 : goParseInt32 (intToDecimalString i) =
        goParseInt32Digits true (natToDigits i.natAbs) := by
      rw [goParseInt32, hdata]
      rfl
    rw [h1, goParseInt32Digits]
    rw [if_neg (by simp [hne, hall])]
    rw [if_pos rfl]
    rw [if_pos (by rw [hvabs]; constructor <;> omega)]
    rw [hvabs]
    congr 1
    omega
  · have hdata : (intToDecimalString i).data = natToDigits i.natAbs := by
      simp [intToDecimalString, hneg]
    rcases hcs : natToDigits i.natAbs with _ | ⟨c, cs⟩
    · exact absurd hcs hne
    have hc : isDigitChar c = true := by
      rw [hcs] at hall
      simp only [List.all_cons, Bool.and_eq_true] at hall
      exact hall.1
    obtain ⟨hcm, hcp⟩ := isDigitChar_ne_sign c hc
    rw [hcs] at hvabs hne hall hv
    rw [goParseInt32, hdata, hcs]
    show (if c = '-' then goParseInt32Digits true cs
      else if c = '+' then goParseInt32Digits false cs
      else goParseInt32Digits false (c :: cs)) = some i
    rw [if_neg hcm, if_neg hcp]
    rw [goParseInt32Digits]
    rw [if_neg (by simp [hne, hall])]
    rw [if_neg (by simp)]
    rw [if_pos (by rw [hvabs]; constructor <;> omega)]
    rw [hvabs]
    congr 1
    omega

/-- C5: token round-trip.  For every 32-bit user id, username, role and
secret, decoding a token produced by `GenerateAccessTokenV2` with the same
secret, at a time strictly before its expiry, succeeds and yields exactly
the original user id (recovered from the stringified subject), username
and role. -/
theorem claim5_token_roundtrip (uid : Int) (username role secret : String) (t now : Int)
    (hlo : -(2 ^ 31) ≤ uid) (hhi : uid ≤ 2 ^ 31 - 1)
    (hnow : now < t + AccessTokenDuration) :
    AuthenticateByAccessTokenV2 (GenerateAccessTokenV2 uid username role secret t).1 secret now =
      some { UserID := uid, Username := username, Role := role } := by
  have hparse := goParseInt32_roundtrip uid hlo hhi
  have hexp : ¬ (t + AccessTokenDuration ≤ now) := not_le.mpr hnow
  simp [GenerateAccessTokenV2, AuthenticateByAccessTokenV2, ParseAccessTokenV2,
    ConvertStringToInt32, hexp, hparse]

/-- Witness for C5 at a concrete input. -/
theorem claim5_token_roundtrip_witness :
    AuthenticateByAccessTokenV2 (GenerateAccessTokenV2 7 "alice" "USER" "sk" 0).1 "sk" 100 =
      some { UserID := 7, Username := "alice", Role := "USER" } :=
  claim5_token_roundtrip 7 "alice" "USER" "sk" 0 100 (by decide) (by decide) (by decide)

/-- Helper: a generated token parses to its own claims at any time
strictly before its expiry. -/
theorem ParseAccessTokenV2_generate (uid : Int) (username role secret : String) (t now : Int)
    (hnow : now < t + AccessTokenDuration) :
    ParseAccessTokenV2 (GenerateAccessTokenV2 uid username role secret t).1 secret now =
      Except.ok
        { typ := "access", role := role, username := username, issuer := Issuer,
          audience := [AccessTokenAudienceName], subject := intToDecimalString uid,
          issuedAt := t, expiresAt := t + AccessTokenDuration } := by
  have hexp : ¬ (t + AccessTokenDuration ≤ now) := not_le.mpr hnow
  simp [GenerateAccessTokenV2, ParseAccessTokenV2, hexp]

/-- C6: expiry boundary.  A token generated at time `t` with the default
24-hour duration parses successfully at every time strictly before
`t + AccessTokenDuration` and fails with the expiry error at
`t + AccessTokenDuration` and beyond; moreover the decode outcome of any
wire token depends on the current time only through the comparison with
the embedded expiry, so expiry is the only mechanism that terminates a
token's validity. -/
theorem claim6_expiry_boundary (uid : Int) (username role secret : String) (t : Int) :
    (∀ now, now < t + AccessTokenDuration →
      ∃ c, ParseAccessTokenV2 (GenerateAccessTokenV2 uid username role secret t).1 secret now =
        Except.ok c) ∧
    (∀ now, t + AccessTokenDuration ≤ now →
      ParseAccessTokenV2 (GenerateAccessTokenV2 uid username role secret t).1 secret now =
        Except.error TokenError.expired) ∧
    (∀ (w : WireToken) (s : String) (now now2 : Int),
      (∀ tk, w = WireToken.tok tk → (now < tk.claims.expiresAt ↔ now2 < tk.claims.expiresAt)) →
      ParseAccessTokenV2 w s now = ParseAccessTokenV2 w s now2) := by
  refine ⟨?_, ?_, ?_⟩
  · intro now hnow
    exact ⟨_, ParseAccessTokenV2_generate uid username role secret t now hnow⟩
  · intro now hnow
    simp [GenerateAccessTokenV2, ParseAccessTokenV2, hnow]
  · intro w s now now2 h
    cases w with
    | malformed => rfl
    | tok tk =>
      have hiff := h tk rfl
      have hcond : (tk.claims.expiresAt ≤ now) ↔ (tk.claims.expiresAt ≤ now2) := by
        omega
      simp only [ParseAccessTokenV2, hcond]

/-- Witness for C6 at a concrete input: success one second before expiry,
expiry error exactly at the boundary. -/
theorem claim6_expiry_boundary_witness :
    (∃ c, ParseAccessTokenV2 (GenerateAccessTokenV2 1 "bob" "USER" "sk" 0).1 "sk" 86399 =
      Except.ok c) ∧
    ParseAccessTokenV2 (GenerateAccessTokenV2 1 "bob" "USER" "sk" 0).1 "sk" 86400 =
      Except.error TokenError.expired :=
  ⟨(claim6_expiry_boundary 1 "bob" "USER" "sk" 0).1 86399 (by decide),
   (claim6_expiry_boundary 1 "bob" "USER" "sk" 0).2.1 86400 (by decide)⟩

/-- C7: resolver totality.  The identity resolver is a total function that
returns no identity whenever the Authorization header does not split into
exactly two whitespace-delimited fields with a case-insensitive bearer
scheme, whenever token decoding fails for any reason (every failure cause
is absorbed uniformly into the same `none` outcome), and whenever the
decoded subject string does not convert to a user id. -/
theorem claim7_resolver_totality (parseWire : String → WireToken)
    (header secret : String) (now : Int) :
    ((goFields header.data).length ≠ 2 → ExtractBearerToken header = "") ∧
    (∀ p0 p1, goFields header.data = [p0, p1] → eqFoldAscii p0 "bearer".data = false →
      ExtractBearerToken header = "") ∧
    (ExtractBearerToken header = "" → Authenticate parseWire header secret now = none) ∧
    (∀ e, ParseAccessTokenV2 (parseWire (ExtractBearerToken header)) secret now =
        Except.error e →
      Authenticate parseWire header secret now = none) ∧
    (∀ c, ParseAccessTokenV2 (parseWire (ExtractBearerToken header)) secret now =
        Except.ok c →
      ConvertStringToInt32 c.subject = none →
      Authenticate parseWire header secret now = none) := by
  refine ⟨?_, ?_, ?_, ?_, ?_⟩
  · intro h
    rw [ExtractBearerToken]
    split
    · rfl
    · split
      · next p0 p1 heq => rw [heq] at h; simp at h
      · rfl
  · intro p0 p1 hsplit hfold
    rw [ExtractBearerToken]
    split
    · rfl
    · split
      · next q0 q1 heq =>
        rw [hsplit] at heq
        injection heq with h0 htl
        injection htl with h1 _
        rw [← h0, hfold]
        simp
      · rfl
  · intro h
    simp [Authenticate, h]
  · intro e he
    by_cases htok : ExtractBearerToken header = ""
    · simp [Authenticate, htok]
    · simp [Authenticate, htok, AuthenticateByAccessTokenV2, he]
  · intro c hc hconv
    by_cases htok : ExtractBearerToken header = ""
    · simp [Authenticate, htok]
    · simp [Authenticate, htok, AuthenticateByAccessTokenV2, hc, hconv]

/-- Witness for C7 at a concrete input: a syntactically well-formed bearer
header whose token fails to decode resolves to no identity. -/
theorem claim7_resolver_totality_witness :
    Authenticate (fun _ => WireToken.malformed) "Bearer abc" "sk" 0 = none :=
  (claim7_resolver_totality (fun _ => WireToken.malformed) "Bearer abc" "sk" 0).2.2.2.1
    TokenError.malformed rfl

/-- Helper: the `UpdateNote` prologue allows exactly the identities that
satisfy the specification-side `CanMutate`. -/
theorem updateNotePermission_allow_iff (ident : Option User) (existing : Note) :
    updateNotePermission ident existing = MutationDecision.allow ↔
      CanMutate (goParseUint32 existing.AuthorId) ident = true := by
  rcases ident with _ | u
  · simp [updateNotePermission, CanMutate]
  · by_cases hID : u.ID = goParseUint32 existing.AuthorId <;>
    by_cases hA : u.Role = Role.admin <;>
    by_cases hH : u.Role = Role.host <;>
    simp [updateNotePermission, CanMutate, hID, hA, hH]

/-- Helper: the `DeleteNote` prologue allows exactly the identities that
satisfy the specification-side `CanMutate`. -/
theorem deleteNotePermission_allow_iff (ident : Option User) (existing : Note) :
    deleteNotePermission ident existing = MutationDecision.allow ↔
      CanMutate (goParseUint32 existing.AuthorId) ident = true := by
  rcases ident with _ | u
  · simp [deleteNotePermission, CanMutate]
  · by_cases hID : u.ID = goParseUint32 existing.AuthorId <;>
    by_cases hA : u.Role = Role.admin <;>
    by_cases hH : u.Role = Role.host <;>
    simp [deleteNotePermission, CanMutate, hID, hA, hH]

/-- Helper: the `UpdateAttachment` prologue allows exactly the attachment's
author, with no role override. -/
theorem updateAttachmentPermission_allow_iff (ident : Option User) (att : Attachment) :
    updateAttachmentPermission ident att = MutationDecision.allow ↔
      ∃ u, ident = some u ∧ goSscanfUint att.AuthorId = some u.ID := by
  rcases ident with _ | u
  · simp [updateAttachmentPermission]
  · cases hscan : goSscanfUint att.AuthorId with
    | none => simp [updateAttachmentPermission, hscan]
    | some a =>
      by_cases h : u.ID = a
      · simp [updateAttachmentPermission, hscan, h]
      · simp [updateAttachmentPermission, hscan, h]
        exact fun hh => h hh.symm

/-- Helper: the `DeleteAttachment` prologue allows exactly the attachment's
author, with no role override. -/
theorem deleteAttachmentPermission_allow_iff (ident : Option User) (att : Attachment) :
    deleteAttachmentPermission ident att = MutationDecision.allow ↔
      ∃ u, ident = some u ∧ goSscanfUint att.AuthorId = some u.ID := by
  rcases ident with _ | u
  · simp [deleteAttachmentPermission]
  · cases hscan : goSscanfUint att.AuthorId with
    | none => simp [deleteAttachmentPermission, hscan]
    | some a =>
      by_cases h : u.ID = a
      · simp [deleteAttachmentPermission, hscan, h]
      · simp [deleteAttachmentPermission, hscan, h]
        exact fun hh => h hh.symm

/-- C2 counterexample: an ADMIN identity whose user id differs from the
attachment's author id is refused by `UpdateAttachment` with
permission-denied, although the claim's CanMutate rule grants ADMIN the
mutation; the attachment mutation paths have no admin/host override. -/
theorem claim2_counterexample :
    updateAttachmentPermission (some ⟨2, "eve", "", "", "", Role.admin⟩) ⟨7, "1", ""⟩ =
      MutationDecision.permissionDenied ∧
    CanMutate 1 (some ⟨2, "eve", "", "", "", Role.admin⟩) = true ∧
    goSscanfUint "1" = some 1 := by
  decide

/-- C2 (amended): the note mutation prologues (`UpdateNote`, `DeleteNote`)
allow exactly the CanMutate identities — present and author or ADMIN or
HOST; the attachment mutation prologues (`UpdateAttachment`,
`DeleteAttachment`) allow exactly the attachment's author, with no
admin/host override; absent identity is always denied; and the note
decision never consults the resource's visibility. -/
theorem claim2_canMutate_amended :
    (∀ (ident : Option User) (existing : Note),
      (updateNotePermission ident existing = MutationDecision.allow ↔
        CanMutate (goParseUint32 existing.AuthorId) ident = true) ∧
      (deleteNotePermission ident existing = MutationDecision.allow ↔
        CanMutate (goParseUint32 existing.AuthorId) ident = true)) ∧
    (∀ (ident : Option User) (att : Attachment),
      (updateAttachmentPermission ident att = MutationDecision.allow ↔
        ∃ u, ident = some u ∧ goSscanfUint att.AuthorId = some u.ID) ∧
      (deleteAttachmentPermission ident att = MutationDecision.allow ↔
        ∃ u, ident = some u ∧ goSscanfUint att.AuthorId = some u.ID)) ∧
    (∀ (existing : Note),
      updateNotePermission none existing = MutationDecision.unauthenticated ∧
      deleteNotePermission none existing = MutationDecision.unauthenticated ∧
      updateAttachmentPermission none ⟨0, "", ""⟩ = MutationDecision.unauthenticated ∧
      deleteAttachmentPermission none ⟨0, "", ""⟩ = MutationDecision.unauthenticated) ∧
    (∀ (ident : Option User) (existing : Note) (v : NoteVisibility),
      updateNotePermission ident { existing with Visibility := v } =
        updateNotePermission ident existing ∧
      deleteNotePermission ident { existing with Visibility := v } =
        deleteNotePermission ident existing) := by
  refine ⟨?_, ?_, ?_, ?_⟩
  · exact fun ident existing =>
      ⟨updateNotePermission_allow_iff ident existing,
       deleteNotePermission_allow_iff ident existing⟩
  · exact fun ident att =>
      ⟨updateAttachmentPermission_allow_iff ident att,
       deleteAttachmentPermission_allow_iff ident att⟩
  · exact fun existing => ⟨rfl, rfl, rfl, rfl⟩
  · intro ident existing v
    rcases ident with _ | u <;>
      exact ⟨rfl, rfl⟩

/-- C3: evaluation of the update at the failing input.  The `UpdateUser`
handler applies a requested role unconditionally — the privilege check is
commented out in the source — so a stored USER becomes ADMIN from a
payload carrying the ADMIN role, with no condition at all on the caller's
identity (the function does not even take the caller as an input). -/
theorem claim3_role_escalation_codebug :
    (applyUserUpdate ⟨1, "mallory", "", "", "", Role.user⟩
        ⟨"", "", "", "", ProtoUserRole.admin⟩).Role = Role.admin ∧
    (⟨1, "mallory", "", "", "", Role.user⟩ : User).Role = Role.user := by
  decide

/-- C4 counterexample: an ADMIN identity that is not the author can read
an unlinked attachment on the RPC `GetAttachment` path, although the claim
states that unlinked attachments are readable only by their exact author
on both read paths. -/
theorem claim4_counterexample :
    getAttachmentAllowed (some ⟨2, "eve", "", "", "", Role.admin⟩) ⟨7, "1", ""⟩
        (fun _ => none) = true ∧
    goSscanfUint "1" = some 1 ∧ (2 : Nat) ≠ 1 := by
  decide

/-- C4 (amended): on the file-serving path an unlinked attachment is
readable exactly by its author (no admin/host override), but on the RPC
`GetAttachment` path an unlinked attachment is readable by its author or
by any ADMIN or HOST; a linked attachment is readable on the RPC path
whenever the linked note is visible to the caller, while on the
file-serving path a linked attachment of a PUBLIC note is served to
everyone and one of a PRIVATE note exactly to the note's author (again
with no admin/host override). -/
theorem claim4_attachment_read_amended :
    (∀ (ident : Option User) (att : Attachment) (lookupNote : Int → Option Note),
      att.NoteId = "" →
      (checkAttachmentPermission ident att lookupNote = FsOutcome.ok ↔
        ∃ u, ident = some u ∧ goSscanfUint att.AuthorId = some u.ID)) ∧
    (∀ (ident : Option User) (att : Attachment) (lookupNote : Int → Option Note),
      att.NoteId = "" →
      (getAttachmentAllowed ident att lookupNote = true ↔
        ∃ u a, ident = some u ∧ goSscanfUint att.AuthorId = some a ∧
          (u.ID = a ∨ u.Role = Role.admin ∨ u.Role = Role.host))) ∧
    (∀ (ident : Option User) (att : Attachment) (lookupNote : Int → Option Note)
        (nid : Int) (note : Note),
      goScanNotesId att.NoteId = some nid → lookupNote nid = some note →
      isNoteVisibleToUser note ident = true →
      getAttachmentAllowed ident att lookupNote = true) ∧
    (∀ (ident : Option User) (att : Attachment) (lookupNote : Int → Option Note)
        (nid : Int) (note : Note),
      att.NoteId ≠ "" → goScanNotesId att.NoteId = some nid → lookupNote nid = some note →
      (note.Visibility = NoteVisibility.pub →
        checkAttachmentPermission ident att lookupNote = FsOutcome.ok) ∧
      (note.Visibility = NoteVisibility.priv →
        (checkAttachmentPermission ident att lookupNote = FsOutcome.ok ↔
          ∃ u a, ident = some u ∧ goSscanfUint note.AuthorId = some a ∧ u.ID = a))) := by
  refine ⟨?_, ?_, ?_, ?_⟩
  · intro ident att lookupNote hempty
    rw [checkAttachmentPermission.eq_def, if_pos hempty]
    rcases ident with _ | u
    · simp
    · cases hscan : goSscanfUint att.AuthorId with
      | none => simp [hscan]
      | some a =>
        by_cases h : u.ID = a
        · simp [hscan, h]
        · simp [hscan, h]
          exact fun hh => h hh.symm
  · intro ident att lookupNote hempty
    rw [getAttachmentAllowed.eq_def]
    simp only [hempty]
    rcases ident with _ | u
    · simp
    · cases hscan : goSscanfUint att.AuthorId with
      | none => simp [hscan]
      | some a => simp [hscan, or_assoc]
  · intro ident att lookupNote nid note hscan hlook hvis
    have hne : att.NoteId ≠ "" := by
      intro h
      rw [h] at hscan
      simp [goScanNotesId] at hscan
    rw [getAttachmentAllowed.eq_def]
    simp [hne, hscan, hlook, hvis]
  · intro ident att lookupNote nid note hne hscan hlook
    rw [checkAttachmentPermission.eq_def, if_neg hne]
    rw [hscan]
    simp only [hlook]
    constructor
    · intro hpub
      simp [hpub]
    · intro hpriv
      rw [hpriv]
      simp only [reduceCtorEq, if_false]
      rcases ident with _ | u
      · simp
      · cases hscan2 : goSscanfUint note.AuthorId with
        | none => simp [hscan2]
        | some a => by_cases h : u.ID = a <;> simp [hscan2, h]

/-- Witness for C4 at a concrete input: the author reads their own
unlinked attachment on the file-serving path. -/
theorem claim4_attachment_read_amended_witness :
    checkAttachmentPermission (some ⟨1, "ann", "", "", "", Role.user⟩) ⟨7, "1", ""⟩
      (fun _ => none) = FsOutcome.ok :=
  (claim4_attachment_read_amended.1 (some ⟨1, "ann", "", "", "", Role.user⟩) ⟨7, "1", ""⟩
      (fun _ => none) rfl).mpr
    ⟨⟨1, "ann", "", "", "", Role.user⟩, rfl, by decide⟩

/-- C8 counterexample: on the note-filtered `ListAttachments` path, an
invisible note yields permission-denied even when no identity is present,
although the claim states that absent identity always yields the distinct
authentication-required outcome at every permission check. -/
theorem claim8_counterexample :
    ListAttachments none 10 "notes/5"
        (fun _ => some ⟨5, "1", NoteVisibility.priv, true, 0⟩) [] =
      ListAttachmentsResult.permissionDenied ∧
    ListAttachmentsResult.permissionDenied ≠ ListAttachmentsResult.unauthenticated := by
  decide

/-- C8 (amended): the interceptor rejects any request with no resolved
identity on a non-public method with the authentication-required outcome
before the handler runs, and the note and attachment mutation prologues as
well as the RPC `GetAttachment` distinguish authentication-required
(absent identity) from permission-denied (present but unauthorized);
however `GetNote` collapses the two into the same generic error, and the
note-filtered `ListAttachments` visibility check returns permission-denied
even for an absent identity. -/
theorem claim8_denial_taxonomy_amended :
    (∀ (α : Type) (procedure : String) (next : Option UserClaims → α),
      IsPublicMethod procedure = false →
      WrapUnary none procedure next = InterceptOutcome.unauthenticated) ∧
    (∀ existing : Note,
      updateNotePermission none existing = MutationDecision.unauthenticated ∧
      deleteNotePermission none existing = MutationDecision.unauthenticated ∧
      ∀ u, updateNotePermission (some u) existing ≠ MutationDecision.unauthenticated ∧
        deleteNotePermission (some u) existing ≠ MutationDecision.unauthenticated) ∧
    (∀ att : Attachment,
      updateAttachmentPermission none att = MutationDecision.unauthenticated ∧
      deleteAttachmentPermission none att = MutationDecision.unauthenticated ∧
      ∀ u, updateAttachmentPermission (some u) att ≠ MutationDecision.unauthenticated ∧
        deleteAttachmentPermission (some u) att ≠ MutationDecision.unauthenticated) ∧
    (∀ (att : Attachment) (lookupNote : Int → Option Note),
      getAttachmentAllowed none att lookupNote = false →
      getAttachmentDecision none att lookupNote = MutationDecision.unauthenticated) ∧
    (∀ (u : User) (att : Attachment) (lookupNote : Int → Option Note),
      getAttachmentAllowed (some u) att lookupNote = false →
      getAttachmentDecision (some u) att lookupNote = MutationDecision.permissionDenied) ∧
    (∀ (note : Note) (u : User),
      isNoteVisibleToUser note none = false → isNoteVisibleToUser note (some u) = false →
      getNoteDecision none note = GetNoteOutcome.genericErr ∧
      getNoteDecision (some u) note = GetNoteOutcome.genericErr) ∧
    (∀ (ident : Option User) (ps : Int) (s : String) (nid : Int) (note : Note)
        (lookupNote : Int → Option Note) (db : List AttachmentRow),
      s ≠ "" → goScanNotesId s = some nid → lookupNote nid = some note →
      isNoteVisibleToUser note ident = false →
      ListAttachments ident ps s lookupNote db = ListAttachmentsResult.permissionDenied) := by
  refine ⟨?_, ?_, ?_, ?_, ?_, ?_, ?_⟩
  · intro α procedure next h
    simp [WrapUnary, h]
  · intro existing
    refine ⟨rfl, rfl, fun u => ⟨?_, ?_⟩⟩ <;>
      simp [updateNotePermission, deleteNotePermission] <;> split <;> simp
  · intro att
    refine ⟨rfl, rfl, fun u => ⟨?_, ?_⟩⟩ <;>
    · simp only [updateAttachmentPermission, deleteAttachmentPermission]
      cases goSscanfUint att.AuthorId
      · simp
      · simp only []
        split <;> simp
  · intro att lookupNote h
    simp [getAttachmentDecision, h]
  · intro u att lookupNote h
    simp [getAttachmentDecision, h]
  · intro note u h1 h2
    exact ⟨by simp [getNoteDecision, h1], by simp [getNoteDecision, h2]⟩
  · intro ident ps s nid note lookupNote db hs hscan hlook hvis
    rw [ListAttachments.eq_def]
    simp [hs, hscan, hlook, hvis]

/-- Witness for C8 at a concrete input: a request with no identity on the
non-public `CreateNote` method is rejected before the handler runs. -/
theorem claim8_denial_taxonomy_amended_witness :
    WrapUnary none "/api.v1.NoteService/CreateNote" (fun _ => (0 : Nat)) =
      InterceptOutcome.unauthenticated :=
  claim8_denial_taxonomy_amended.1 Nat "/api.v1.NoteService/CreateNote" (fun _ => (0 : Nat))
    (by decide)

/-- C9 counterexample: an update of an already-published note whose payload
carries a non-positive `published_at` resets the stored value to the
store's current time, although the claim states that such an update leaves
the stored `published_at` unchanged. -/
theorem claim9_counterexample :
    updateNoteStoredPublishedAt ⟨5, "1", NoteVisibility.pub, true, 1000⟩
        ⟨5, "1", NoteVisibility.pub, true, 0⟩ 2000 2000 = 2000 ∧
    (2000 : Int) ≠ 1000 := by
  decide

/-- C9 (amended): on a false-to-true publish transition the stored
`published_at` is set to the service's current time; on an update keeping
the note published the stored value is the payload's `published_at` when
positive — so it is unchanged exactly when the payload echoes the stored
value — and is reset to the store's current time when the payload's
`published_at` is not positive. -/
theorem claim9_publishedAt_amended :
    (∀ (existing payload : Note) (nowSvc nowStore : Int),
      existing.Published = false → payload.Published = true → 0 < nowSvc →
      updateNoteStoredPublishedAt existing payload nowSvc nowStore = nowSvc) ∧
    (∀ (existing payload : Note) (nowSvc nowStore : Int),
      existing.Published = true → payload.Published = true → 0 < payload.PublishedAt →
      updateNoteStoredPublishedAt existing payload nowSvc nowStore = payload.PublishedAt) ∧
    (∀ (existing payload : Note) (nowSvc nowStore : Int),
      existing.Published = true → payload.Published = true → payload.PublishedAt ≤ 0 →
      updateNoteStoredPublishedAt existing payload nowSvc nowStore = nowStore) := by
  refine ⟨?_, ?_, ?_⟩
  · intro existing payload nowSvc nowStore hEx hPay hPos
    simp [updateNoteStoredPublishedAt, serviceUpdateNote, storeUpdateNotePublishedAt,
      hEx, hPay, hPos]
  · intro existing payload nowSvc nowStore hEx hPay hPos
    simp [updateNoteStoredPublishedAt, serviceUpdateNote, storeUpdateNotePublishedAt,
      hEx, hPay, hPos]
  · intro existing payload nowSvc nowStore hEx hPay hNonpos
    simp [updateNoteStoredPublishedAt, serviceUpdateNote, storeUpdateNotePublishedAt,
      hEx, hPay, not_lt.mpr hNonpos]

/-- Witness for C9 at a concrete input: publishing an unpublished note
stamps the service time. -/
theorem claim9_publishedAt_amended_witness :
    updateNoteStoredPublishedAt ⟨5, "1", NoteVisibility.pub, false, 0⟩
      ⟨5, "1", NoteVisibility.pub, true, 0⟩ 42 99 = 42 :=
  claim9_publishedAt_amended.1 ⟨5, "1", NoteVisibility.pub, false, 0⟩
    ⟨5, "1", NoteVisibility.pub, true, 0⟩ 42 99 rfl rfl (by decide)

/-- C10 counterexample: with page size 1 a caller owning two non-deleted
attachments receives only the first, so the returned list is not exactly
the caller's own non-deleted attachments. -/
theorem claim10_counterexample :
    ListAttachments (some ⟨1, "ann", "", "", "", Role.user⟩) 1 "" (fun _ => none)
        [⟨10, none, 1, false⟩, ⟨11, none, 1, false⟩] =
      ListAttachmentsResult.ok [⟨10, none, 1, false⟩] ∧
    storeListAttachments [⟨10, none, 1, false⟩, ⟨11, none, 1, false⟩] none (some 1) =
      [⟨10, none, 1, false⟩, ⟨11, none, 1, false⟩] ∧
    ([⟨10, none, 1, false⟩] : List AttachmentRow) ≠
      [⟨10, none, 1, false⟩, ⟨11, none, 1, false⟩] := by
  decide

/-- C10 (amended): with no note filter, an absent identity yields the
authentication-required outcome, and a present identity receives its own
non-deleted attachments in creation order truncated to the effective page
size (default 50, capped at 1000); every returned row belongs to the
caller and is not deleted, and the listing is independent of the caller's
role, so ADMIN and HOST receive no broader listing; with a note filter
that parses, the only permission condition is that the note is visible to
the caller. -/
theorem claim10_listAttachments_amended :
    (∀ (ps : Int) (lookupNote : Int → Option Note) (db : List AttachmentRow),
      ListAttachments none ps "" lookupNote db = ListAttachmentsResult.unauthenticated) ∧
    (∀ (u : User) (ps : Int) (lookupNote : Int → Option Note) (db : List AttachmentRow),
      ListAttachments (some u) ps "" lookupNote db =
        ListAttachmentsResult.ok
          ((storeListAttachments db none (some u.ID)).take (effPageSize ps))) ∧
    (∀ (u : User) (ps : Int) (lookupNote : Int → Option Note) (db : List AttachmentRow)
        (rows : List AttachmentRow) (a : AttachmentRow),
      ListAttachments (some u) ps "" lookupNote db = ListAttachmentsResult.ok rows →
      a ∈ rows → a.authorId = u.ID ∧ a.deleted = false) ∧
    (∀ (u : User) (r : Role) (ps : Int) (lookupNote : Int → Option Note)
        (db : List AttachmentRow),
      ListAttachments (some { u with Role := r }) ps "" lookupNote db =
        ListAttachments (some u) ps "" lookupNote db) ∧
    (∀ (ident : Option User) (ps : Int) (s : String) (nid : Int) (note : Note)
        (lookupNote : Int → Option Note) (db : List AttachmentRow),
      s ≠ "" → goScanNotesId s = some nid → lookupNote nid = some note →
      (isNoteVisibleToUser note ident = true →
        ListAttachments ident ps s lookupNote db =
          ListAttachmentsResult.ok
            ((storeListAttachments db (some nid) none).take (effPageSize ps))) ∧
      (isNoteVisibleToUser note ident = false →
        ListAttachments ident ps s lookupNote db = ListAttachmentsResult.permissionDenied)) := by
  refine ⟨?_, ?_, ?_, ?_, ?_⟩
  · intro ps lookupNote db
    rfl
  · intro u ps lookupNote db
    rfl
  · intro u ps lookupNote db rows a hres hmem
    have hrows : rows = (storeListAttachments db none (some u.ID)).take (effPageSize ps) := by
      have h2 : ListAttachments (some u) ps "" lookupNote db =
          ListAttachmentsResult.ok
            ((storeListAttachments db none (some u.ID)).take (effPageSize ps)) := rfl
      rw [h2] at hres
      exact (ListAttachmentsResult.ok.injEq _ _).mp hres.symm
    rw [hrows] at hmem
    have hmem2 : a ∈ storeListAttachments db none (some u.ID) := List.take_subset _ _ hmem
    rw [storeListAttachments] at hmem2
    have := (List.mem_filter.mp hmem2).2
    simp only [Bool.and_eq_true, Bool.not_eq_true', decide_eq_true_eq] at this
    exact ⟨this.2, this.1.1⟩
  · intro u r ps lookupNote db
    rfl
  · intro ident ps s nid note lookupNote db hs hscan hlook
    constructor
    · intro hvis
      rw [ListAttachments.eq_def]
      simp [hs, hscan, hlook, hvis]
    · intro hvis
      rw [ListAttachments.eq_def]
      simp [hs, hscan, hlook, hvis]

/-- Witness for C10 at a concrete input: a note-filtered listing of a
public note succeeds without any identity. -/
theorem claim10_listAttachments_amended_witness :
    ListAttachments none 10 "notes/5" (fun _ => some ⟨5, "1", NoteVisibility.pub, true, 0⟩)
      [] = ListAttachmentsResult.ok [] :=
  ((claim10_listAttachments_amended.2.2.2.2 none 10 "notes/5" 5
      ⟨5, "1", NoteVisibility.pub, true, 0⟩
      (fun _ => some ⟨5, "1", NoteVisibility.pub, true, 0⟩) [] (by decide) (by decide)
      rfl).1 (by decide))

end SimpleNotes
